import Mathlib

/-!
Verification of the data-normalization pipeline of the marketing-dashboard
component (`src/unnamed/part_000`, the current revision of
`MarketingDashboard`; `src/src/MarketingDashboard.js` is an earlier draft of
the same component kept in the repository).

The embedding models JavaScript cell values (`JSValue`), JS numbers with
their NaN/Infinity points (`JSNum`, finite values idealized as exact
rationals), the scalar normalizers `cleanNumber` and `formatDate`, the row
mapper and series builder `processData`, and the upload handler
`handleFileUpload` as a state transformer.  The external `Date`
constructor / `toISOString` pair is abstracted as a `DateEnv`
(a parse function returning `none` for an Invalid Date, whose
`toISOString` throws, and a calendar renderer).  `Array.prototype.sort`
is modeled by the stable `List.mergeSort`; every property proved below
about the sorted series is invariant across conforming implementations
of the sort (length, membership, emptiness, independence from the
selected region), so it does not depend on this choice.
-/

namespace MarketingDashboard

/-- A JavaScript number: finite values are idealized as exact rationals;
NaN and the two infinities are separate points. -/
inductive JSNum where
  | finite (q : ℚ)
  | nan
  | posInf
  | negInf
deriving DecidableEq

/-- `Number.isFinite`. -/
def JSNum.isFinite : JSNum → Bool
  | .finite _ => true
  | _ => false

/-- A loosely-typed spreadsheet cell value, as handed to the helpers:
a string, a number, `null`, or `undefined` (absent property). -/
inductive JSValue where
  | str (s : String)
  | num (n : JSNum)
  | null
  | undefined
deriving DecidableEq

/-- JavaScript falsiness (`!value`) on the cell-value domain:
the empty string, `0`, `NaN`, `null` and `undefined` are falsy. -/
def falsy : JSValue → Bool
  | .str s => s == ""
  | .num n => n == .finite 0 || n == .nan
  | .null => true
  | .undefined => true

/-- Value of a list of decimal digit characters. -/
def digitsToNat (cs : List Char) : ℕ :=
  cs.foldl (fun acc c => 10 * acc + (c.toNat - '0'.toNat)) 0

/-- The exact value of a JavaScript numeral, restricted to the alphabet
that survives the `replace(/[^\d.-]/g, '')` cleaning (digits, `.`, `-`):
parse an optional sign, then integer digits, then an optional fraction
introduced by `.`; everything after the longest such prefix is ignored.
`none` models `NaN` (no digit could be consumed).  The conversion of this
exact value into a JS double is done by `toDouble`. -/
def parseFloatQ (s : String) : Option ℚ :=
  let cs := s.toList
  let signSplit : Bool × List Char :=
    match cs with
    | '-' :: rest => (true, rest)
    | '+' :: rest => (false, rest)
    | _ => (false, cs)
  let body := signSplit.2
  let intPart := body.takeWhile Char.isDigit
  let afterInt := body.dropWhile Char.isDigit
  let fracPart :=
    match afterInt with
    | '.' :: rest => rest.takeWhile Char.isDigit
    | _ => []
  if intPart.isEmpty && fracPart.isEmpty then
    none
  else
    let den : ℕ := 10 ^ fracPart.length
    let mag : ℚ := mkRat (digitsToNat intPart * den + digitsToNat fracPart) den
    some (if signSplit.1 then -mag else mag)

/-- The least magnitude that IEEE-754 round-to-nearest-even sends to
`Infinity` when converting an exact value to a binary64 double:
`2^1024 - 2^970`, halfway between the largest finite double
(`2^1024 - 2^971`) and `2^1024` — written as a numeral so the kernel
can compute with it; `overflowThreshold_eq` checks the provenance. -/
def overflowThreshold : ℚ := 179769313486231580793728971405303415079934132710037826936173778980444968292764750946649017977587207096330286416692887910946555547851940402630657488671505820681908902000708383676273854845817711531764475730270069855571366959622842914819860834936475292719074168444365510704342711559699508093042880177904174497792

/-- The numeral above is exactly `2^1024 - 2^970`. -/
theorem overflowThreshold_eq : overflowThreshold = 2 ^ 1024 - 2 ^ 970 := by
  norm_num [overflowThreshold]

/-- Conversion of an exact parsed value into a JS double, faithful as far
as finiteness goes: magnitudes at or beyond the overflow threshold become
`±Infinity` (exactly the IEEE-754 round-to-nearest rule); smaller values
stay finite in binary64 and are kept as the exact rational here —
the sub-ulp rounding of in-range values is idealized away, which cannot
change finiteness, and every concrete value examined by the spec's test
vectors is taken at this exact reading. -/
def toDouble (q : ℚ) : JSNum :=
  if overflowThreshold ≤ q then .posInf
  else if q ≤ -overflowThreshold then .negInf
  else .finite q

/-- JavaScript `parseFloat` on a cleaned numeral: the exact parse,
converted to a double (so a long enough numeral, e.g. 400 nines,
overflows to `Infinity`, as it does in JS). -/
def parseFloatJS (s : String) : Option JSNum :=
  (parseFloatQ s).map toDouble

/-- `cleanNumber` (the spec's `normalizeNumber`), translated from
`src/unnamed/part_000` lines 53-61: falsy values and the placeholder
strings `'-'` / `'₩-'` map to `0`; numbers are returned unchanged; strings
are stripped to `[0-9.-]` and parsed with `parseFloat`, with `|| 0`
turning the falsy results `NaN` and `±0` into `0` while a truthy
`±Infinity` from an overflowing numeral passes through.  (The earlier
draft in
`src/src/MarketingDashboard.js` lines 12-20 writes the won-placeholder
literal in a different byte encoding; both versions agree on every input
because a missed placeholder is cleaned to `"-"`, which parses to `NaN`
and defaults to `0` anyway.) -/
def cleanNumber (value : JSValue) : JSNum :=
  if falsy value || value == .str "-" || value == .str "₩-" then .finite 0
  else
    match value with
    | .num n => n
    | .str s =>
        match parseFloatJS (String.mk (s.toList.filter (fun c => c.isDigit || c == '.' || c == '-'))) with
        | some n => if n == .finite 0 then .finite 0 else n
        | none => .finite 0
    | _ => .finite 0

/-- The `mkRat` form of `1.2`. -/
theorem mkRat_six_five : (mkRat 6 5 : ℚ) = 1.2 := by
  rw [Rat.mkRat_eq_div]; norm_num

/-- The `mkRat` form of `-42.5`. -/
theorem mkRat_neg_85_2 : (mkRat (-85) 2 : ℚ) = -42.5 := by
  rw [Rat.mkRat_eq_div]; norm_num

/-- Helper: converting an exact value to a double never produces `NaN`. -/
theorem toDouble_ne_nan (q : ℚ) : toDouble q ≠ .nan := by
  unfold toDouble
  split_ifs <;> simp

/-- Helper: `parseFloat` never produces a `NaN` *value* (a failed parse is
the `none` outcome instead). -/
theorem parseFloatJS_ne_some_nan (s : String) : parseFloatJS s ≠ some .nan := by
  unfold parseFloatJS
  cases parseFloatQ s with
  | none => simp
  | some q => simpa using toDouble_ne_nan q

/-- Helper: on a string input, `cleanNumber` returns a finite number or
the infinite value that `parseFloat` itself produced on the cleaned
numeral (double overflow). -/
theorem cleanNumber_str_cases (s : String) :
    (cleanNumber (.str s)).isFinite = true ∨
    (parseFloatJS (String.mk (s.toList.filter (fun c => c.isDigit || c == '.' || c == '-')))
        = some (cleanNumber (.str s)) ∧
      (cleanNumber (.str s) = .posInf ∨ cleanNumber (.str s) = .negInf)) := by
  simp only [cleanNumber]
  split
  · left; rfl
  · cases hp : parseFloatJS
        (String.mk (s.toList.filter (fun c => c.isDigit || c == '.' || c == '-'))) with
    | none => left; rfl
    | some n =>
        cases n with
        | finite q =>
            left
            dsimp only
            split <;> rfl
        | nan => exact absurd hp (parseFloatJS_ne_some_nan _)
        | posInf => exact Or.inr ⟨rfl, Or.inl rfl⟩
        | negInf => exact Or.inr ⟨rfl, Or.inr rfl⟩

/-- Helper: `cleanNumber` never returns `NaN`. -/
theorem cleanNumber_ne_nan (v : JSValue) : cleanNumber v ≠ .nan := by
  cases v with
  | str s =>
      rcases cleanNumber_str_cases s with h | ⟨-, h | h⟩
      · intro hn
        rw [hn] at h
        simp [JSNum.isFinite] at h
      · rw [h]; simp
      · rw [h]; simp
  | num n =>
      cases n with
      | finite q =>
          unfold cleanNumber
          split <;> simp
      | nan => decide
      | posInf => decide
      | negInf => decide
  | null => decide
  | undefined => decide

/-- Claim C2 counterexample: `cleanNumber` applied to the number `Infinity`
returns `Infinity`, which is not finite — refuting "for every input value
… it returns a finite number" at a concrete input. -/
theorem cleanNumber_infinity_not_finite :
    cleanNumber (.num .posInf) = .posInf ∧ JSNum.posInf.isFinite = false :=
  ⟨rfl, rfl⟩

set_option maxRecDepth 8192 in
/-- Claim C2 (amended): `cleanNumber` is total, never throws, and never
returns `NaN`; the result is a finite number for every input except that
an infinite number input is returned unchanged (`Infinity` is truthy and
of `typeof number`), and a string whose stripped numeral overflows the
IEEE-754 double range yields the `±Infinity` that `parseFloat` produced
(`|| 0` keeps it, `Infinity` being truthy).  A `NaN` number input is
falsy and yields `0`.  The final conjunct exhibits the string overflow
concretely: a numeral of 400 nines cleans to `Infinity`. -/
theorem cleanNumber_total :
    (∀ v : JSValue, cleanNumber v ≠ .nan) ∧
    (∀ v : JSValue,
      (cleanNumber v).isFinite = true ∨
      (v = .num .posInf ∧ cleanNumber v = .posInf) ∨
      (v = .num .negInf ∧ cleanNumber v = .negInf) ∨
      (∃ s, v = .str s ∧
        parseFloatJS (String.mk (s.toList.filter (fun c => c.isDigit || c == '.' || c == '-')))
          = some (cleanNumber v) ∧
        (cleanNumber v = .posInf ∨ cleanNumber v = .negInf))) ∧
    cleanNumber (.str (String.mk (List.replicate 400 '9'))) = .posInf := by
  refine ⟨cleanNumber_ne_nan, ?_, ?_⟩
  · intro v
    cases v with
    | str s =>
        rcases cleanNumber_str_cases s with h | ⟨h1, h2⟩
        · exact Or.inl h
        · exact Or.inr (Or.inr (Or.inr ⟨s, rfl, h1, h2⟩))
    | num n =>
        cases n with
        | finite q =>
            left
            unfold cleanNumber
            split
            · rfl
            · rfl
        | nan => left; rfl
        | posInf => exact Or.inr (Or.inl ⟨rfl, rfl⟩)
        | negInf => exact Or.inr (Or.inr (Or.inl ⟨rfl, rfl⟩))
    | null => left; rfl
    | undefined => left; rfl
  · decide

/-- Claim C8: the concrete test vectors of `cleanNumber` (the spec's
`normalizeNumber`): `"₩1,234" ↦ 1234`, `"-" ↦ 0`, `"" ↦ 0`, `500 ↦ 500`,
`"-42.5" ↦ -42.5`. -/
theorem cleanNumber_vectors :
    cleanNumber (.str "₩1,234") = .finite 1234 ∧
    cleanNumber (.str "-") = .finite 0 ∧
    cleanNumber (.str "") = .finite 0 ∧
    cleanNumber (.num (.finite 500)) = .finite 500 ∧
    cleanNumber (.str "-42.5") = .finite (-42.5) := by
  refine ⟨by decide, by decide, by decide, by decide, ?_⟩
  have h : cleanNumber (.str "-42.5") = .finite (mkRat (-85) 2) := by decide
  rw [h, mkRat_neg_85_2]

/-- Claim C10: on strings whose stripped form is not a well-formed numeral
but starts with a numeric prefix, `cleanNumber` returns the `parseFloat`
parse of that prefix, not the `0` default: `"1.2.3" ↦ 1.2` and
`"12-34" ↦ 12`. -/
theorem cleanNumber_prefix_parse :
    cleanNumber (.str "1.2.3") = .finite 1.2 ∧ (1.2 : ℚ) ≠ 0 ∧
    cleanNumber (.str "12-34") = .finite 12 := by
  refine ⟨?_, by norm_num, by decide⟩
  have h : cleanNumber (.str "1.2.3") = .finite (mkRat 6 5) := by decide
  rw [h, mkRat_six_five]

/-- Boundary abstraction of the JavaScript `Date` machinery:
`parse v` models `new Date(v).getTime()` with `none` standing for an
Invalid Date (on which `toISOString` throws a `RangeError`), and
`render t` models `new Date(t).toISOString().split('T')[0]`, the
`YYYY-MM-DD` rendering of a valid timestamp. -/
structure DateEnv where
  parse : JSValue → Option Int
  render : Int → String

/-- A JavaScript `try { attempt } catch { fallback }` whose `try` block
evaluates to a value or throws. -/
def jsTry (attempt : Except String JSValue) (fallback : JSValue) : JSValue :=
  match attempt with
  | .ok v => v
  | .error _ => fallback

/-- `d.toISOString().split('T')[0]` on a constructed date: throws
(`RangeError`) when the date is invalid, otherwise renders it. -/
def toISODate (env : DateEnv) (t : Option Int) : Except String String :=
  match t with
  | some ms => .ok (env.render ms)
  | none => .error "RangeError: Invalid time value"

/-- `formatDate` (the spec's `normalizeDate`), translated from
`src/unnamed/part_000` lines 63-73: falsy inputs yield `''`; a string
already containing `-` is returned as is; otherwise the value is run
through `new Date` / `toISOString` inside a `try`, whose `catch` returns
the original value. -/
def formatDate (env : DateEnv) (date : JSValue) : JSValue :=
  if falsy date then .str ""
  else if (match date with | .str s => s.toList.contains '-' | _ => false) then date
  else
    jsTry (do
      let iso ← toISODate env (env.parse date)
      pure (JSValue.str iso)) date

/-- Modelled from the spec's words for `normalizeDate` (section 4.1), as
the refinement target for claim C7: falsy ↦ empty string; a string
containing `-` ↦ unchanged; otherwise the `YYYY-MM-DD` rendering of the
constructed calendar date, or the original raw value when construction
fails. -/
def normalizeDateSpec (env : DateEnv) (raw : JSValue) : JSValue :=
  if falsy raw then .str ""
  else if (match raw with | .str s => s.toList.contains '-' | _ => false) then raw
  else
    match env.parse raw with
    | some d => .str (env.render d)
    | none => raw

/-- Claim C7: `formatDate` satisfies the spec's case analysis for
`normalizeDate` — empty string on falsy input, identity on dash-containing
strings, and otherwise either the rendered `YYYY-MM-DD` date or the
original raw value when date construction fails — for every date
backend. -/
theorem formatDate_eq_spec (env : DateEnv) (raw : JSValue) :
    formatDate env raw = normalizeDateSpec env raw := by
  unfold formatDate normalizeDateSpec
  split
  · rfl
  · split
    · rfl
    · cases env.parse raw <;> rfl

/-- A JavaScript object with string keys, in property-creation order:
both the decoder's raw rows and the mapped records. -/
abbrev Obj := List (String × JSValue)

/-- JavaScript property access `row[k]`: `undefined` when absent. -/
def jsGet (row : Obj) (k : String) : JSValue :=
  match List.lookup k row with
  | some v => v
  | none => .undefined

/-- JavaScript `v || d`: the left operand when truthy, otherwise `d`. -/
def jsOr (v d : JSValue) : JSValue :=
  if falsy v then d else v

/-- The `REGIONS` constant (`src/unnamed/part_000` lines 20-25). -/
def REGIONS : List (String × String) :=
  [("KR", "Korea"), ("EN", "English"), ("CNTW", "China/Taiwan"), ("JP", "Japan")]

/-- The non-region numeric columns of a processed row, in source order
(`src/unnamed/part_000` lines 140-150). -/
def coreNumKeys : List String :=
  ["Steam Total Traffic", "Steam Search", "Steam 3rd Party", "Steam Discount Page",
   "Steam Bot", "Steam Other page", "Wishlist Addition", "Wishlist Deletions",
   "Purchase&Activations", "Gifts", "Total Wishlist Balance"]

/-- The free-text issue columns (`src/unnamed/part_000` lines 137-139). -/
def issueKeys : List String :=
  ["Game Issue", "Steam Issue", "UA Issue"]

/-- The six region-parameterized column names for one region code, in
source order (`src/unnamed/part_000` lines 155-160): two channels ×
{Cost, Impression, Click}. -/
def regionKeys (region : String) : List String :=
  ["GA " ++ region ++ " Cost", "GA " ++ region ++ " Impression", "GA " ++ region ++ " Click",
   "X " ++ region ++ " Cost", "X " ++ region ++ " Impression", "X " ++ region ++ " Click"]

/-- The per-row mapper inside `processData` (`src/unnamed/part_000` lines
134-163): normalize the date, copy the three issue columns with `|| ''`,
clean the eleven core numeric columns, then, for every region in
`REGIONS`, clean the six region-parameterized columns. -/
def mapRow (env : DateEnv) (row : Obj) : Obj :=
  [("Date", formatDate env (jsGet row "Date"))]
  ++ issueKeys.map (fun k => (k, jsOr (jsGet row k) (.str "")))
  ++ coreNumKeys.map (fun k => (k, JSValue.num (cleanNumber (jsGet row k))))
  ++ REGIONS.flatMap (fun r => (regionKeys r.1).map
       (fun k => (k, JSValue.num (cleanNumber (jsGet row k)))))

/-- `new Date(rec.Date).getTime()` for the sort comparator; `none` is `NaN`. -/
def dateKey (env : DateEnv) (rec : Obj) : Option Int :=
  env.parse (jsGet rec "Date")

/-- The sort order induced by the comparator
`(a, b) => new Date(a.Date) - new Date(b.Date)` under the ECMAScript
`SortCompare` rules: a `NaN` comparator result is treated as `+0`, i.e.
the records compare as equal (so `le` holds in both directions). -/
def sortLe (env : DateEnv) (a b : Obj) : Bool :=
  match dateKey env a, dateKey env b with
  | some x, some y => decide (x ≤ y)
  | _, _ => true

/-- The series produced by `processData` (`src/unnamed/part_000` lines
134-167): map every raw row, then sort by date with the stable
`Array.prototype.sort` (modeled as a stable merge sort). -/
def processSeries (env : DateEnv) (rows : List Obj) : List Obj :=
  (rows.map (mapRow env)).mergeSort (sortLe env)

/-- `formatNumber` idealizing `Intl.NumberFormat` as plain rendering
(`src/unnamed/part_000` lines 40-43): the exact digits are presentation
only and are never inspected by the pipeline. -/
def formatNumber (v : JSValue) : String :=
  match v with
  | .undefined => "0"
  | .null => "0"
  | .num (.finite q) => toString q
  | .num .nan => "NaN"
  | .num .posInf => "Infinity"
  | .num .negInf => "-Infinity"
  | .str s => s

/-- String interpolation `${v}` of a cell value. -/
def jsToString : JSValue → String
  | .str s => s
  | .num (.finite q) => toString q
  | .num .nan => "NaN"
  | .num .posInf => "Infinity"
  | .num .negInf => "-Infinity"
  | .null => "null"
  | .undefined => "undefined"

/-- `processData` (`src/unnamed/part_000` lines 130-184): map and sort the
rows, then build the diagnostic summary text from `processedData[0]` and
`processedData[length - 1]` and the currently selected region.  On an
empty batch, `processedData[0]` is `undefined` and reading `.Date` from it
throws a `TypeError`, modeled as the `Except.error` case; otherwise the
function returns the series (the value passed to `setData`) together with
the debug text appended by this call. -/
def processData (env : DateEnv) (selectedRegion : String) (rows : List Obj) :
    Except String (List Obj × String) :=
  match processSeries env rows with
  | [] => .error "TypeError: Cannot read properties of undefined (reading 'Date')"
  | firstRow :: rest =>
      let lastRow := (firstRow :: rest).getLastD firstRow
      .ok (firstRow :: rest,
        "\nTotal rows found: " ++ toString rows.length ++
        "\nData Processing Complete:" ++
        "\nDate Range: " ++ jsToString (jsGet firstRow "Date") ++ " to "
          ++ jsToString (jsGet lastRow "Date") ++
        "\nLatest Metrics:" ++
        "\n- Total Traffic: " ++ formatNumber (jsGet lastRow "Steam Total Traffic") ++
        "\n- Wishlist Balance: " ++ formatNumber (jsGet lastRow "Total Wishlist Balance") ++
        "\n- GA " ++ selectedRegion ++ " Clicks: "
          ++ formatNumber (jsGet lastRow ("GA " ++ selectedRegion ++ " Click")) ++
        "\n- X " ++ selectedRegion ++ " Clicks: "
          ++ formatNumber (jsGet lastRow ("X " ++ selectedRegion ++ " Click")))

/-- The component state touched by an upload
(`src/unnamed/part_000` lines 33-37). -/
structure DashState where
  data : List Obj
  error : String
  selectedRegion : String
  debugInfo : String
  isLoading : Bool
deriving DecidableEq

/-- `handleFileUpload` (`src/unnamed/part_000` lines 76-96) as a state
transformer: the asynchronous decode boundary (`readExcelFile`) is passed
in as its resolved outcome.  No file selected only sets the debug text;
otherwise the decode result is processed inside `try`/`catch`/`finally`:
any decode or processing error sets the error banner and appends to the
diagnostic text without touching `data`. -/
def handleFileUpload (env : DateEnv) (st : DashState) (file : Option String)
    (decodeResult : Except String (List Obj)) : DashState :=
  match file with
  | none => { st with debugInfo := "No file selected" }
  | some name =>
      let st1 := { st with isLoading := true, debugInfo := "File selected: " ++ name }
      match decodeResult with
      | .error msg =>
          { st1 with
            error := "Error processing file: " ++ msg
            debugInfo := st1.debugInfo ++ "\nError: " ++ msg
            isLoading := false }
      | .ok rows =>
          match processData env st1.selectedRegion rows with
          | .error msg =>
              { st1 with
                error := "Error processing file: " ++ msg
                debugInfo := st1.debugInfo ++ "\nError: " ++ msg
                isLoading := false }
          | .ok (series, dbg) =>
              { st1 with
                data := series
                debugInfo := st1.debugInfo ++ dbg
                isLoading := false }

/-- A concrete executable date backend for witnesses: parses decimal
integer strings as timestamps and renders with `toString`. -/
def envExample : DateEnv where
  parse := fun v =>
    match v with
    | .str s =>
        if !s.toList.isEmpty && s.toList.all Char.isDigit then
          some (digitsToNat s.toList : ℤ)
        else none
    | _ => none
  render := fun t => if t = 0 then "0" else if t = 1 then "1" else "9"

/-- Helper: every region-parameterized column of a mapped row is present
and carries the cleaned value of the raw cell. -/
theorem mapRow_region_lookup (env : DateEnv) (row : Obj) :
    ∀ r ∈ REGIONS.map Prod.fst, ∀ k ∈ regionKeys r,
      List.lookup k (mapRow env row) = some (.num (cleanNumber (jsGet row k))) := by
  intro r hr k hk
  have hr' : r ∈ ["KR", "EN", "CNTW", "JP"] := by simpa [REGIONS] using hr
  fin_cases hr' <;>
    · have hk' := hk
      fin_cases hk' <;> rfl

/-- Helper: every core numeric column of a mapped row is present and
carries the cleaned value of the raw cell. -/
theorem mapRow_core_lookup (env : DateEnv) (row : Obj) :
    ∀ k ∈ coreNumKeys,
      List.lookup k (mapRow env row) = some (.num (cleanNumber (jsGet row k))) := by
  intro k hk
  fin_cases hk <;> rfl

/-- Helper: every issue column of a mapped row is present, defaulted
with `|| ''`. -/
theorem mapRow_issue_lookup (env : DateEnv) (row : Obj) :
    ∀ k ∈ issueKeys,
      List.lookup k (mapRow env row) = some (jsOr (jsGet row k) (.str "")) := by
  intro k hk
  fin_cases hk <;> rfl

/-- The series a call to `processData` hands to `setData` (empty when the
call threw instead of reaching `setData`). -/
def seriesOf (e : Except String (List Obj × String)) : List Obj :=
  match e with
  | .ok (s, _) => s
  | .error _ => []

/-- Helper: the series `processData` produces (empty on the throwing
path) is exactly the mapped-and-sorted row list. -/
theorem seriesOf_processData (env : DateEnv) (sel : String) (rows : List Obj) :
    seriesOf (processData env sel rows) = processSeries env rows := by
  unfold processData
  cases h : processSeries env rows with
  | nil => simp [seriesOf]
  | cons a t => simp [seriesOf]

/-- Claim C3: every record of a built series contains all six
region-parameterized numeric fields for every region code of the fixed
set — whatever region is selected at build time (the selected region
only feeds the diagnostic text). -/
theorem series_region_fields_complete (env : DateEnv) (sel : String)
    (rows : List Obj) (rec : Obj)
    (hrec : rec ∈ seriesOf (processData env sel rows))
    (r k : String) (hr : r ∈ REGIONS.map Prod.fst) (hk : k ∈ regionKeys r) :
    ∃ n : JSNum, List.lookup k rec = some (.num n) := by
  rw [seriesOf_processData] at hrec
  have hmem : rec ∈ (rows.map (mapRow env)) := List.mem_mergeSort.mp hrec
  obtain ⟨row, -, hrow⟩ := List.mem_map.mp hmem
  exact ⟨_, hrow ▸ mapRow_region_lookup env row r hr k hk⟩

/-- Claim C3 witness: a concrete record of a concretely built series has
the `"X JP Click"` field although `"KR"` was selected. -/
theorem series_region_fields_complete_witness :
    ∃ n : JSNum, List.lookup "X JP Click" (mapRow envExample []) = some (.num n) :=
  series_region_fields_complete envExample "KR" [[]] (mapRow envExample [])
    (by rw [seriesOf_processData]; simp [processSeries]) "JP" "X JP Click"
    (by decide) (by decide)

/-- Claim C5 counterexample: a malformed numeric cell does not always
yield the `0` default — `"1.2.3"` in `"Wishlist Addition"` is mapped to
`1.2` (the `parseFloat` prefix), which is not `0`. -/
theorem mapRow_malformed_not_default :
    List.lookup "Wishlist Addition"
        (mapRow envExample [("Wishlist Addition", .str "1.2.3")])
      = some (.num (.finite (mkRat 6 5)))
    ∧ (mkRat 6 5 : ℚ) = 1.2 ∧ (mkRat 6 5 : ℚ) ≠ 0 := by
  refine ⟨by decide, mkRat_six_five, by decide⟩

/-- Claim C5 (amended): the row mapper never fails and never drops rows —
building from `N` raw rows yields exactly `N` records; a *missing* numeric
column yields the `0` default and a missing issue column the `''` default.
(A malformed numeric cell is cleaned by `cleanNumber`, which yields `0`
only when no numeric prefix parses; see the counterexample and C10.) -/
theorem processData_lenient (env : DateEnv) (rows : List Obj) (row : Obj) (k : String) :
    (processSeries env rows).length = rows.length ∧
    (k ∈ coreNumKeys ++ REGIONS.flatMap (fun r => regionKeys r.1) →
      jsGet row k = .undefined →
      List.lookup k (mapRow env row) = some (.num (.finite 0))) ∧
    (k ∈ issueKeys → jsGet row k = .undefined →
      List.lookup k (mapRow env row) = some (.str "")) := by
  refine ⟨by simp [processSeries], ?_, ?_⟩
  · intro hk h
    have hv : List.lookup k (mapRow env row) = some (.num (cleanNumber (jsGet row k))) := by
      rcases List.mem_append.mp hk with h1 | h2
      · exact mapRow_core_lookup env row k h1
      · obtain ⟨r, hrmem, hkr⟩ := List.mem_flatMap.mp h2
        exact mapRow_region_lookup env row r.1 (List.mem_map_of_mem Prod.fst hrmem) k hkr
    rw [hv, h]
    rfl
  · intro hk h
    rw [mapRow_issue_lookup env row k hk, h]
    rfl

/-- Claim C5 witness: on a row with no columns at all, the numeric field
`"Wishlist Addition"` defaults to `0` and the issue field `"Game Issue"`
to the empty string. -/
theorem processData_lenient_witness :
    List.lookup "Wishlist Addition" (mapRow envExample []) = some (.num (.finite 0)) ∧
    List.lookup "Game Issue" (mapRow envExample []) = some (.str "") :=
  ⟨(processData_lenient envExample [] [] "Wishlist Addition").2.1 (by decide) rfl,
   (processData_lenient envExample [] [] "Game Issue").2.2 (by decide) rfl⟩

/-- Claim C1 (divergence demonstration): on a decoded batch of zero rows,
`processData` does not return an empty series with empty/undefined date
bounds — it throws a `TypeError` while building the date-range debug line
(`processedData[0]` is `undefined` and `.Date` is read from it). -/
theorem processData_empty_throws (env : DateEnv) (sel : String) :
    processData env sel [] =
      .error "TypeError: Cannot read properties of undefined (reading 'Date')" := by
  have h : processSeries env [] = [] := by simp [processSeries]
  simp [processData, h]

/-- Claim C6: when the decode boundary fails, the upload is atomic — the
previously displayed series is left untouched, the user-visible error
banner is set to the error text, and the diagnostic text records it. -/
theorem handleFileUpload_decode_error_atomic (env : DateEnv) (st : DashState)
    (name msg : String) :
    (handleFileUpload env st (some name) (.error msg)).data = st.data ∧
    (handleFileUpload env st (some name) (.error msg)).error
      = "Error processing file: " ++ msg ∧
    (handleFileUpload env st (some name) (.error msg)).debugInfo
      = "File selected: " ++ name ++ "\nError: " ++ msg :=
  ⟨rfl, rfl, rfl⟩

/-- Claim C9: the built series (the first component of a successful
`processData` result, and likewise the error outcome) is a pure function
of the raw-row batch alone — the selected region, which does feed the
diagnostic text, does not affect any record of the series.  (Determinism
over two runs is intrinsic: the pipeline is modeled as a function of the
batch.) -/
theorem processData_series_pure (env : DateEnv) (sel₁ sel₂ : String) (rows : List Obj) :
    Except.map Prod.fst (processData env sel₁ rows)
      = Except.map Prod.fst (processData env sel₂ rows) := by
  cases hps : processSeries env rows with
  | nil => simp [processData, hps]
  | cons a t => simp [processData, hps, Except.map]

end MarketingDashboard
